import Mathlib

/-
  Verification development for the gramX chat backend (src/server.js).

  The repository concatenates several iterations of the server. The
  definitions below are shallow embeddings of the functions and socket
  handlers that the verified properties talk about:

  - `getConversationId` (server.js lines 958-960, iteration 3),
  - the `split` of a conversation id and `getUserConversations`
    (lines 963-1019),
  - the `join-conversation`, `send-private-message`, `user-login` and
    `disconnect` socket handlers (lines 1085-1193),
  - the `sendMessage` and `messageStatus` handlers of iteration 1
    (lines 556-648) and its GET /api/messages route (lines 427-454),
  - the `message_delivered` / `message_read` handlers of iteration 4
    (lines 1840-1874).

  JavaScript strings are embedded as lists of characters; JavaScript
  Maps are embedded as functions into Option; MongoDB collections are
  embedded as lists of documents in insertion order, with `_id` values
  embedded as natural numbers that grow with insertion order (MongoDB
  ObjectIds generated on insert are monotone within one process, which
  is also what the spec assumes of message identifiers).  Fallible
  database calls are embedded through `Except` together with explicit
  failure flags, so the try/catch structure of the handlers is visible.
-/

namespace GramX

/-- A JavaScript string, embedded as its list of characters. -/
abbrev UName := List Char

/-- The separator used by `getConversationId` (server.js line 959). -/
def sep : Char := '_'

/-- JavaScript default string comparison (code-unit lexicographic `<`),
as used by `Array.prototype.sort` on the two-element array in
`getConversationId`. -/
def jsStringLt : UName → UName → Bool
  | [], [] => false
  | [], _ :: _ => true
  | _ :: _, [] => false
  | a :: as, b :: bs => if a < b then true else if b < a then false else jsStringLt as bs

/-- server.js lines 958-960:
`function getConversationId(user1, user2) { return [user1, user2].sort().join('_'); }`.
A two-element `sort()` swaps the elements exactly when the second
compares strictly below the first. -/
def getConversationId (user1 user2 : UName) : UName :=
  if jsStringLt user2 user1 then user2 ++ sep :: user1 else user1 ++ sep :: user2

/-- server.js line 569 (iteration 1, `sendMessage` handler): the chat
identifier is built with the template literal `${senderId}-${receiverId}`. -/
def sendMessageChatId (senderId receiverId : UName) : List Char :=
  senderId ++ '-' :: receiverId

/-- server.js line 979: `conversationId.split('_')`, embedded at the
character-list level.  `split` on an empty string yields one empty piece. -/
def splitUnderscore : List Char → List (List Char)
  | [] => [[]]
  | c :: rest =>
    if c = sep then [] :: splitUnderscore rest
    else
      match splitUnderscore rest with
      | [] => [[c]]
      | h :: t => (c :: h) :: t

theorem jsStringLt_irrefl (a : UName) : jsStringLt a a = false := by
  induction a with
  | nil => rfl
  | cons c cs ih => simp [jsStringLt, ih]

theorem jsStringLt_asymm {a b : UName} (h : jsStringLt a b = true) :
    jsStringLt b a = false := by
  induction a generalizing b with
  | nil =>
    cases b with
    | nil => simp [jsStringLt] at h
    | cons y ys => simp [jsStringLt]
  | cons x xs ih =>
    cases b with
    | nil => simp [jsStringLt] at h
    | cons y ys =>
      by_cases hxy : x < y
      · have : ¬ y < x := lt_asymm hxy
        simp [jsStringLt, hxy, this]
      · by_cases hyx : y < x
        · simp [jsStringLt, hxy, hyx] at h
        · simp [jsStringLt, hxy, hyx] at h ⊢
          exact ih h

theorem jsStringLt_conn {a b : UName} (hab : jsStringLt a b = false)
    (hba : jsStringLt b a = false) : a = b := by
  induction a generalizing b with
  | nil =>
    cases b with
    | nil => rfl
    | cons y ys => simp [jsStringLt] at hab
  | cons x xs ih =>
    cases b with
    | nil => simp [jsStringLt] at hba
    | cons y ys =>
      by_cases hxy : x < y
      · simp [jsStringLt, hxy] at hab
      · by_cases hyx : y < x
        · simp [jsStringLt, hyx] at hba
        · have hx : x = y := le_antisymm (not_lt.mp hyx) (not_lt.mp hxy)
          simp [jsStringLt, hxy, hyx] at hab hba
          simp [hx, ih hab hba]

/-- The two sorted-pair branches of `getConversationId` agree with the
swapped call. -/
theorem getConversationId_swap (a b : UName) :
    getConversationId a b = getConversationId b a := by
  unfold getConversationId
  by_cases h1 : jsStringLt b a = true
  · simp [h1, jsStringLt_asymm h1]
  · by_cases h2 : jsStringLt a b = true
    · simp [h2, jsStringLt_asymm h2]
    · have h1f : jsStringLt b a = false := by simpa using h1
      have h2f : jsStringLt a b = false := by simpa using h2
      have : b = a := jsStringLt_conn h1f h2f
      simp [h1f, h2f, this]

theorem splitUnderscore_ne_nil (l : List Char) : splitUnderscore l ≠ [] := by
  induction l with
  | nil => simp [splitUnderscore]
  | cons c rest ih =>
    by_cases hc : c = sep
    · simp [splitUnderscore, hc]
    · simp only [splitUnderscore, hc, if_false]
      cases h : splitUnderscore rest with
      | nil => simp
      | cons x t => simp

theorem splitUnderscore_no_sep {l : List Char} (h : sep ∉ l) :
    splitUnderscore l = [l] := by
  induction l with
  | nil => rfl
  | cons c rest ih =>
    have hc : c ≠ sep := fun hc => h (hc ▸ List.mem_cons_self c rest)
    have hrest : sep ∉ rest := fun hr => h (List.mem_cons_of_mem c hr)
    have hcc : ¬ c = sep := hc
    simp [splitUnderscore, hcc, ih hrest]

theorem splitUnderscore_append {l₁ : List Char} (l₂ : List Char)
    (h : sep ∉ l₁) : splitUnderscore (l₁ ++ sep :: l₂) = l₁ :: splitUnderscore l₂ := by
  induction l₁ with
  | nil => simp [splitUnderscore]
  | cons c rest ih =>
    have hc : ¬ c = sep := fun hc => h (hc ▸ List.mem_cons_self c rest)
    have hrest : sep ∉ rest := fun hr => h (List.mem_cons_of_mem c hr)
    have hs := ih hrest
    simp only [List.cons_append, splitUnderscore, hc, if_false]
    rw [List.append_eq, hs]

/-- Splitting at the unique separator is unambiguous when neither prefix
contains the separator. -/
theorem sep_split_unique {l₁ l₂ m₁ m₂ : List Char} (h₁ : sep ∉ l₁) (h₂ : sep ∉ m₁)
    (h : l₁ ++ sep :: l₂ = m₁ ++ sep :: m₂) : l₁ = m₁ ∧ l₂ = m₂ := by
  induction l₁ generalizing m₁ with
  | nil =>
    cases m₁ with
    | nil => simpa using h
    | cons y ys =>
      simp only [List.nil_append, List.cons_append, List.cons.injEq] at h
      exact absurd (h.1 ▸ List.mem_cons_self y ys) h₂
  | cons x xs ih =>
    cases m₁ with
    | nil =>
      simp only [List.nil_append, List.cons_append, List.cons.injEq] at h
      exact absurd (h.1.symm ▸ List.mem_cons_self x xs) h₁
    | cons y ys =>
      simp only [List.cons_append, List.cons.injEq] at h
      have hx : sep ∉ xs := fun hr => h₁ (List.mem_cons_of_mem x hr)
      have hy : sep ∉ ys := fun hr => h₂ (List.mem_cons_of_mem y hr)
      rcases ih hx hy h.2 with ⟨e1, e2⟩
      exact ⟨by rw [h.1, e1], e2⟩

/-- The sorted pair underlying `getConversationId`. -/
def sortedPair (a b : UName) : UName × UName :=
  if jsStringLt b a then (b, a) else (a, b)

theorem getConversationId_eq_sortedPair (a b : UName) :
    getConversationId a b = (sortedPair a b).1 ++ sep :: (sortedPair a b).2 := by
  unfold getConversationId sortedPair
  by_cases h : jsStringLt b a <;> simp [h]

theorem sortedPair_not_lt (a b : UName) :
    jsStringLt (sortedPair a b).2 (sortedPair a b).1 = false := by
  unfold sortedPair
  by_cases h : jsStringLt b a = true
  · simp [h, jsStringLt_asymm h]
  · have hf : jsStringLt b a = false := by simpa using h
    simp [hf]

theorem sortedPair_mem (a b : UName) :
    ((sortedPair a b).1 = a ∧ (sortedPair a b).2 = b) ∨
      ((sortedPair a b).1 = b ∧ (sortedPair a b).2 = a) := by
  unfold sortedPair
  by_cases h : jsStringLt b a <;> simp [h]

/-- A key rebuilt from its own sorted pair is unchanged. -/
theorem getConversationId_of_sorted {x y : UName} (h : jsStringLt y x = false) :
    getConversationId x y = x ++ sep :: y := by
  unfold getConversationId
  simp [h]

/-- Under separator-free identifiers the two components of a conversation
key are recovered exactly by `sep_split_unique`. -/
theorem getConversationId_inj_pair {a b c d : UName}
    (ha : sep ∉ a) (hb : sep ∉ b) (hc : sep ∉ c) (hd : sep ∉ d)
    (h : getConversationId a b = getConversationId c d) :
    (a = c ∧ b = d) ∨ (a = d ∧ b = c) := by
  rw [getConversationId_eq_sortedPair a b, getConversationId_eq_sortedPair c d] at h
  have hab1 : sep ∉ (sortedPair a b).1 := by
    rcases sortedPair_mem a b with ⟨h1, _⟩ | ⟨h1, _⟩ <;> rw [h1] <;> assumption
  have hcd1 : sep ∉ (sortedPair c d).1 := by
    rcases sortedPair_mem c d with ⟨h1, _⟩ | ⟨h1, _⟩ <;> rw [h1] <;> assumption
  rcases sep_split_unique hab1 hcd1 h with ⟨e1, e2⟩
  rcases sortedPair_mem a b with ⟨p1, p2⟩ | ⟨p1, p2⟩ <;>
    rcases sortedPair_mem c d with ⟨q1, q2⟩ | ⟨q1, q2⟩
  · exact Or.inl ⟨by rw [← p1, e1, q1], by rw [← p2, e2, q2]⟩
  · exact Or.inr ⟨by rw [← p1, e1, q1], by rw [← p2, e2, q2]⟩
  · exact Or.inr ⟨by rw [← p2, e2, q2], by rw [← p1, e1, q1]⟩
  · exact Or.inl ⟨by rw [← p2, e2, q2], by rw [← p1, e1, q1]⟩

/-- A message document of the `messages` collection (iteration 3): the
shape inserted by `send-private-message` (server.js lines 1142-1149) plus
the generated `_id` (line 1153).  Identifiers are naturals that grow with
insertion order. -/
structure Msg where
  id : Nat
  text : List Char
  sender : UName
  receiver : UName
  timestamp : Nat
  conversationId : List Char
  read : Bool
  deriving DecidableEq, Repr

/-- The `messages` collection, in insertion order. -/
abbrev Store := List Msg

/-- server.js lines 1116-1119 (`join-conversation`):
`find({ conversationId }).sort({ timestamp: 1 })`.  MongoDB leaves the
relative order of documents with equal timestamps unspecified; this
executable embedding fixes one admissible choice (insertion order, via a
stable sort) so that the handler stays a function.  No verified conclusion
depends on that choice; the set of all admissible query results is
`conversationHistoryResult` below. -/
def conversationHistory (s : Store) (conversationId : List Char) : List Msg :=
  (s.filter fun m => decide (m.conversationId = conversationId)).insertionSort
    fun a b => a.timestamp ≤ b.timestamp

/-- server.js lines 1122-1125 (`join-conversation`):
`updateMany({ conversationId, receiver: currentUser, read: false }, { $set: { read: true } })`. -/
def markConversationRead (s : Store) (conversationId : List Char) (currentUser : UName) :
    Store :=
  s.map fun m =>
    if m.conversationId = conversationId ∧ m.receiver = currentUser ∧ m.read = false then
      { m with read := true }
    else m

/-- server.js lines 1110-1135: the `join-conversation` handler computes the
conversation id, reads the history, marks the addressed messages read, and
emits the history (which was fetched before the update).  Returns the new
store and the emitted history. -/
def joinConversation (s : Store) (currentUser targetUser : UName) : Store × List Msg :=
  let conversationId := getConversationId currentUser targetUser
  let conversationMessages := conversationHistory s conversationId
  (markConversationRead s conversationId currentUser, conversationMessages)

/-- The `lastMessage` projection pushed into a summary
(server.js lines 1000-1004). -/
structure LastMessage where
  text : List Char
  timestamp : Nat
  sender : UName
  deriving DecidableEq, Repr

/-- One entry of the list built by `getUserConversations`
(server.js lines 998-1006). -/
structure ConversationSummary where
  partner : UName
  lastMessage : Option LastMessage
  unreadCount : Nat
  deriving DecidableEq, Repr

/-- An error raised by a backing-store call. -/
inductive DbError
  | failure
  deriving DecidableEq, Repr

/-- Which backing-store calls of `getUserConversations` fail: the
aggregation (lines 969-974), the last-message `find` (lines 984-988) and
the unread `countDocuments` (lines 991-996). -/
structure DbFlags where
  aggregateFails : Bool
  findFails : Bool
  countFails : Bool
  deriving DecidableEq, Repr

/-- The outcome with every backing-store call succeeding. -/
def noDbFailure : DbFlags := ⟨false, false, false⟩

/-- server.js lines 969-974: distinct `conversationId` values over messages
with `sender: username` or `receiver: username`. -/
def distinctConversationIds (s : Store) (username : UName) : List (List Char) :=
  ((s.filter fun m => decide (m.sender = username ∨ m.receiver = username)).map
    (fun m => m.conversationId)).dedup

/-- server.js lines 984-988: `find({ conversationId }).sort({ timestamp: -1 }).limit(1)`.
MongoDB does not specify which document is returned when several share the
maximal timestamp; this executable embedding fixes one admissible choice
via a stable sort.  No verified conclusion depends on which tied message
is picked. -/
def lastMessageOf (s : Store) (conversationId : List Char) : Option Msg :=
  ((s.filter fun m => decide (m.conversationId = conversationId)).insertionSort
    fun a b => b.timestamp ≤ a.timestamp).head?

/-- server.js lines 991-996:
`countDocuments({ conversationId, receiver: username, read: false })`. -/
def unreadCountOf (s : Store) (conversationId : List Char) (username : UName) : Nat :=
  (s.filter fun m =>
    decide (m.conversationId = conversationId ∧ m.receiver = username ∧ m.read = false)).length

/-- The fallible aggregation call of `getUserConversations`. -/
def dbAggregateConvIds (o : DbFlags) (s : Store) (username : UName) :
    Except DbError (List (List Char)) :=
  if o.aggregateFails then .error .failure else .ok (distinctConversationIds s username)

/-- The fallible last-message lookup of `getUserConversations`. -/
def dbLastMessage (o : DbFlags) (s : Store) (conversationId : List Char) :
    Except DbError (Option Msg) :=
  if o.findFails then .error .failure else .ok (lastMessageOf s conversationId)

/-- The fallible unread count of `getUserConversations`. -/
def dbUnreadCount (o : DbFlags) (s : Store) (conversationId : List Char) (username : UName) :
    Except DbError Nat :=
  if o.countFails then .error .failure else .ok (unreadCountOf s conversationId username)

/-- server.js lines 977-1008: the loop body of `getUserConversations`.  For
each conversation id, the partner is the first piece of
`conversationId.split('_')` different from `username` (line 980); a falsy
(empty) partner is skipped (line 982); otherwise the last message and the
unread count are fetched and an entry is pushed.  A thrown backing-store
error aborts the loop. -/
def summariesLoop (o : DbFlags) (s : Store) (username : UName) :
    List (List Char) → Except DbError (List ConversationSummary)
  | [] => .ok []
  | conversationId :: rest =>
    match (splitUnderscore conversationId).find? (fun user => user != username) with
    | none => summariesLoop o s username rest
    | some partner =>
      if partner = [] then summariesLoop o s username rest
      else
        match dbLastMessage o s conversationId with
        | .error e => .error e
        | .ok lastMessage =>
          match dbUnreadCount o s conversationId username with
          | .error e => .error e
          | .ok unreadCount =>
            match summariesLoop o s username rest with
            | .error e => .error e
            | .ok tail =>
              .ok ({ partner := partner,
                     lastMessage := lastMessage.map fun m =>
                       { text := m.text, timestamp := m.timestamp, sender := m.sender },
                     unreadCount := unreadCount } :: tail)

/-- server.js lines 1010-1014: the final sort of the summaries, most recent
last message first; a missing last message counts as time 0 (`new Date(0)`). -/
def summaryTime (c : ConversationSummary) : Nat :=
  match c.lastMessage with
  | some lm => lm.timestamp
  | none => 0

/-- The descending-by-time sort of the summary list. -/
def sortSummaries (l : List ConversationSummary) : List ConversationSummary :=
  l.insertionSort fun a b => summaryTime b ≤ summaryTime a

/-- server.js lines 963-1014: the try-block of `getUserConversations`. -/
def getUserConversationsTry (o : DbFlags) (s : Store) (username : UName) :
    Except DbError (List ConversationSummary) :=
  match dbAggregateConvIds o s username with
  | .error e => .error e
  | .ok conversations =>
    match summariesLoop o s username conversations with
    | .error e => .error e
    | .ok userConversations => .ok (sortSummaries userConversations)

/-- server.js lines 963-1019: `getUserConversations` with its catch branch
(lines 1015-1018), which turns any backing-store failure into `[]`. -/
def getUserConversations (o : DbFlags) (s : Store) (username : UName) :
    List ConversationSummary :=
  match getUserConversationsTry o s username with
  | .ok v => v
  | .error _ => []

/-- The value stored for a socket in `activeUsers`
(server.js line 1089: `{ username, userId: socket.id }`). -/
structure UserData where
  username : UName
  userId : Nat
  deriving DecidableEq, Repr

/-- The two in-memory presence maps (server.js lines 954-955):
`activeUsers : socket.id -> userData` and `userSockets : username -> socket.id`,
embedded as functions into `Option`. -/
structure Presence where
  activeUsers : Nat → Option UserData
  userSockets : UName → Option Nat

/-- The empty maps created at start-up (server.js lines 954-955). -/
def emptyPresence : Presence := ⟨fun _ => none, fun _ => none⟩

/-- server.js lines 1088-1091 (`user-login` handler): the two `Map.set`
calls binding a user to a socket.  `Map.set` replaces any prior value for
the key. -/
def userLoginBind (st : Presence) (username : UName) (socketId : Nat) : Presence :=
  { activeUsers := fun sid =>
      if sid = socketId then some ⟨username, socketId⟩ else st.activeUsers sid,
    userSockets := fun u =>
      if u = username then some socketId else st.userSockets u }

/-- The lookup `userSockets.get(username)` used to resolve the live
connection of a user (server.js line 1167). -/
def resolveSocket (st : Presence) (username : UName) : Option Nat :=
  st.userSockets username

/-- server.js lines 1184-1192 (`disconnect` handler): if the disconnecting
socket has an `activeUsers` entry, delete that entry and delete the
`userSockets` entry of its username, and broadcast `user-offline`.
The username deletion is unconditional: it does not check that the socket
is still the one on record in `userSockets`. -/
def disconnectSocket (st : Presence) (socketId : Nat) : Presence × Option UName :=
  match st.activeUsers socketId with
  | some userData =>
    ({ activeUsers := fun sid => if sid = socketId then none else st.activeUsers sid,
       userSockets := fun u => if u = userData.username then none else st.userSockets u },
     some userData.username)
  | none => (st, none)

/-- Socket emissions of the iteration-3 handlers. -/
inductive SEvent
  | newPrivateMessage (target : UName) (m : Msg)
  | userConversations (target : UName) (l : List ConversationSummary)
  | userOffline (username : UName)
  deriving DecidableEq, Repr

/-- The message document built by `send-private-message`
(server.js lines 1142-1149) with the `_id` added after the insert
(line 1153). -/
def privateMessage (sender receiver : UName) (text : List Char) (now newId : Nat) : Msg :=
  { id := newId, text := text, sender := sender, receiver := receiver,
    timestamp := now, conversationId := getConversationId sender receiver, read := false }

/-- server.js lines 1137-1182: the `send-private-message` handler.
`insertOk` is the outcome of the `insertOne` call (line 1152); when it
throws, the outer catch (lines 1179-1181) only logs, so nothing is emitted
and the store is unchanged.  After a successful insert the message is
echoed to the sender (line 1156) and the sender summaries are pushed
(lines 1159-1164); if the receiver resolves to a live socket the message
and the receiver summaries are sent to it (lines 1167-1177).  The inner
try/catch blocks around the summary pushes are unreachable:
`getUserConversations` never throws (its own catch returns the empty
list), so the `user-conversations` event is always emitted, carrying `[]`
when the backing store fails. -/
def sendPrivateMessage (insertOk : Bool) (o : DbFlags) (st : Presence) (s : Store)
    (sender receiver : UName) (text : List Char) (now newId : Nat) :
    Store × List SEvent :=
  if insertOk then
    let message := privateMessage sender receiver text now newId
    let s2 := s ++ [message]
    let senderEvents :=
      SEvent.newPrivateMessage sender message ::
        [SEvent.userConversations sender (getUserConversations o s2 sender)]
    let receiverEvents :=
      match st.userSockets receiver with
      | some _ =>
        SEvent.newPrivateMessage receiver message ::
          [SEvent.userConversations receiver (getUserConversations o s2 receiver)]
      | none => []
    (s2, senderEvents ++ receiverEvents)
  else (s, [])

/-- Message status values (iteration-4 schema, server.js line 1290:
`enum: ['sent', 'delivered', 'read']`; iteration 1 stores the same three
strings). -/
inductive MsgStatus
  | sent
  | delivered
  | read
  deriving DecidableEq, Repr

/-- A message document of iteration 1 (schema at server.js lines 104-122),
restricted to the fields the verified properties mention. -/
structure MessageDoc where
  id : Nat
  chatId : List Char
  senderId : UName
  receiverId : UName
  message : List Char
  status : MsgStatus
  deleted : Bool
  timestamp : Nat
  deriving DecidableEq, Repr

/-- server.js lines 632-636 (iteration 1, `messageStatus` handler):
`findByIdAndUpdate(messageId, { status })` — the status from the payload
overwrites the stored status unconditionally. -/
def messageStatusUpdate (store : List MessageDoc) (messageId : Nat) (status : MsgStatus) :
    List MessageDoc :=
  store.map fun m => if m.id = messageId then { m with status := status } else m

/-- What a MongoDB `find(filter).sort({ timestamp: 1 })` query guarantees
about its result: it is some permutation of the matching documents that is
non-decreasing in the timestamp.  The relative order of documents sharing
a timestamp is unspecified, so the query denotes this set of admissible
outputs rather than one sequence. -/
def mongoAscByTimestamp {α : Type} (ts : α → Nat) (matching output : List α) : Prop :=
  output.Perm matching ∧ output.Pairwise fun a b => ts a ≤ ts b

/-- server.js lines 1116-1119 (`join-conversation`): the admissible results
of `find({ conversationId }).sort({ timestamp: 1 })`. -/
def conversationHistoryResult (s : Store) (conversationId : List Char)
    (output : List Msg) : Prop :=
  mongoAscByTimestamp (fun m => m.timestamp)
    (s.filter fun m => decide (m.conversationId = conversationId)) output

/-- server.js lines 438-447 (iteration 1, GET /api/messages/:userId): the
admissible results of the `find` over the two sender/receiver orientations
with `deleted: false`, sorted by `{ timestamp: 1 }`. -/
def apiMessagesResult (store : List MessageDoc) (currentUserId userId : UName)
    (output : List MessageDoc) : Prop :=
  mongoAscByTimestamp (fun m => m.timestamp)
    (store.filter fun m =>
      decide (((m.senderId = currentUserId ∧ m.receiverId = userId) ∨
               (m.senderId = userId ∧ m.receiverId = currentUserId)) ∧
              m.deleted = false)) output

instance mongoAscByTimestampDecidable {α : Type} [DecidableEq α] (ts : α → Nat)
    (matching output : List α) : Decidable (mongoAscByTimestamp ts matching output) :=
  decidable_of_iff
    (output.Perm matching ∧ output.Pairwise fun a b => ts a ≤ ts b) Iff.rfl

instance conversationHistoryResultDecidable (s : Store) (conversationId : List Char)
    (output : List Msg) : Decidable (conversationHistoryResult s conversationId output) := by
  unfold conversationHistoryResult
  infer_instance

instance apiMessagesResultDecidable (store : List MessageDoc)
    (currentUserId userId : UName) (output : List MessageDoc) :
    Decidable (apiMessagesResult store currentUserId userId output) := by
  unfold apiMessagesResult
  infer_instance

/-- Socket emissions of the iteration-1 `sendMessage` handler. -/
inductive V1Event
  | errorMsg (target : UName)
  | messageSent (target : UName) (m : MessageDoc)
  | newMessage (target : UName) (m : MessageDoc)
  deriving DecidableEq, Repr

/-- The message document created by the iteration-1 `sendMessage` handler
(server.js lines 568-577): chatId is the template `${senderId}-${receiverId}`
and the initial status is `sent`. -/
def v1NewMessage (senderId receiverId : UName) (text : List Char) (now newId : Nat) :
    MessageDoc :=
  { id := newId, chatId := sendMessageChatId senderId receiverId,
    senderId := senderId, receiverId := receiverId, message := text,
    status := .sent, deleted := false, timestamp := now }

/-- server.js lines 556-595 (iteration 1, `sendMessage` handler), up to the
receiver fan-out.  `blocked` is the block-list check (lines 561-565);
`save1Ok` is the first `save()` (line 579); after a successful save the
handler emits `messageSent` to the sender (line 586); if the receiver room
is non-empty the status is set to `delivered` and saved again (`save2Ok`,
lines 590-592) before `newMessage` is emitted to the receiver (line 594).
A thrown save lands in the catch (lines 621-624), which emits an error
event.  The chat-document bookkeeping that follows (lines 597-620) touches
only the `chats` collection and emits neither `messageSent` nor
`newMessage`, so it is outside this definition. -/
def sendMessageV1 (blocked save1Ok receiverOnline save2Ok : Bool)
    (store : List MessageDoc) (senderId receiverId : UName) (text : List Char)
    (now newId : Nat) : List MessageDoc × List V1Event :=
  if blocked then (store, [.errorMsg senderId])
  else
    let newMessage := v1NewMessage senderId receiverId text now newId
    if save1Ok then
      let store1 := store ++ [newMessage]
      if receiverOnline then
        if save2Ok then
          let delivered := { newMessage with status := .delivered }
          (store1.map fun m => if m.id = newId then { m with status := .delivered } else m,
           [.messageSent senderId newMessage, .newMessage receiverId delivered])
        else
          (store1, [.messageSent senderId newMessage, .errorMsg senderId])
      else
        (store1, [.messageSent senderId newMessage])
    else (store, [.errorMsg senderId])

/-- A message document of iteration 4 (schema at server.js lines 1283-1297),
restricted to the fields the verified properties mention. -/
structure MsgV4 where
  id : Nat
  chatId : Nat
  senderId : UName
  receiverId : UName
  message : List Char
  status : MsgStatus
  deriving DecidableEq, Repr

/-- server.js line 1844 (iteration 4, `message_delivered` handler):
`findByIdAndUpdate(messageId, { status: 'delivered' })` — an unconditional
overwrite to `delivered`. -/
def messageDeliveredUpdate (store : List MsgV4) (messageId : Nat) : List MsgV4 :=
  store.map fun m => if m.id = messageId then { m with status := .delivered } else m

/-- server.js line 1862 (iteration 4, `message_read` handler):
`findByIdAndUpdate(messageId, { status: 'read' })`. -/
def messageReadUpdate (store : List MsgV4) (messageId : Nat) : List MsgV4 :=
  store.map fun m => if m.id = messageId then { m with status := .read } else m

section SortLemmas

variable {α : Type} (ts idf : α → Nat)

/-- Strict ascending order by timestamp with the identifier as tie-break:
the order the original claim asserts for history results. -/
def lexLt (a b : α) : Prop :=
  ts a < ts b ∨ (ts a = ts b ∧ idf a < idf b)

instance lexLtDecidable (a b : α) : Decidable (lexLt ts idf a b) :=
  decidable_of_iff (ts a < ts b ∨ (ts a = ts b ∧ idf a < idf b)) Iff.rfl

end SortLemmas

/-- With no failure flag set, the aggregation call returns the distinct
conversation ids. -/
theorem dbAggregateConvIds_noFail (s : Store) (u : UName) :
    dbAggregateConvIds noDbFailure s u = .ok (distinctConversationIds s u) := rfl

/-- With no failure flag set, the last-message lookup succeeds. -/
theorem dbLastMessage_noFail (s : Store) (cid : List Char) :
    dbLastMessage noDbFailure s cid = .ok (lastMessageOf s cid) := rfl

/-- With no failure flag set, the unread count succeeds. -/
theorem dbUnreadCount_noFail (s : Store) (cid : List Char) (u : UName) :
    dbUnreadCount noDbFailure s cid u = .ok (unreadCountOf s cid u) := rfl

/-- Every entry produced by a fully successful summaries loop records the
partner found in the split of some listed conversation id, together with
the unread count of that conversation computed on the store. -/
theorem summariesLoop_noFail_mem (s : Store) (u : UName) :
    ∀ (convs : List (List Char)) (L : List ConversationSummary),
      summariesLoop noDbFailure s u convs = .ok L →
      ∀ e ∈ L, ∃ cid ∈ convs,
        (splitUnderscore cid).find? (fun user => user != u) = some e.partner ∧
        e.unreadCount = unreadCountOf s cid u := by
  intro convs
  induction convs with
  | nil =>
    intro L hok e he
    simp only [summariesLoop, Except.ok.injEq] at hok
    subst hok
    simp at he
  | cons cid rest ih =>
    intro L hok e he
    simp only [summariesLoop, dbLastMessage_noFail, dbUnreadCount_noFail] at hok
    split at hok
    · obtain ⟨c, hc, h1, h2⟩ := ih L hok e he
      exact ⟨c, List.mem_cons_of_mem cid hc, h1, h2⟩
    · rename_i partner hfind
      split at hok
      · obtain ⟨c, hc, h1, h2⟩ := ih L hok e he
        exact ⟨c, List.mem_cons_of_mem cid hc, h1, h2⟩
      · split at hok
        · exact absurd hok (by simp)
        · rename_i tail hrec
          simp only [Except.ok.injEq] at hok
          subst hok
          rcases List.mem_cons.mp he with rfl | htail
          · exact ⟨cid, List.mem_cons_self cid rest, hfind, rfl⟩
          · obtain ⟨c, hc, h1, h2⟩ := ih tail hrec e htail
            exact ⟨c, List.mem_cons_of_mem cid hc, h1, h2⟩

/-- Membership characterization of a summary of `getUserConversations`
when no backing-store call fails. -/
theorem getUserConversations_noFail_mem {s : Store} {u : UName}
    {e : ConversationSummary} (he : e ∈ getUserConversations noDbFailure s u) :
    ∃ cid ∈ distinctConversationIds s u,
      (splitUnderscore cid).find? (fun user => user != u) = some e.partner ∧
      e.unreadCount = unreadCountOf s cid u := by
  unfold getUserConversations getUserConversationsTry at he
  rw [dbAggregateConvIds_noFail] at he
  split at he
  · rename_i v heq
    dsimp only at heq
    split at heq
    · simp at heq
    · rename_i L hrec
      simp only [Except.ok.injEq] at heq
      subst heq
      have heL : e ∈ L := ((List.perm_insertionSort _ L).mem_iff).mp he
      exact summariesLoop_noFail_mem s u (distinctConversationIds s u) L hrec e heL
  · simp at he

/-- Every distinct conversation id of a user comes from a message of the
store that involves that user. -/
theorem mem_distinctConversationIds {cid : List Char} {s : Store} {u : UName}
    (h : cid ∈ distinctConversationIds s u) :
    ∃ m ∈ s, (m.sender = u ∨ m.receiver = u) ∧ m.conversationId = cid := by
  unfold distinctConversationIds at h
  rw [List.mem_dedup] at h
  obtain ⟨m, hm, hcid⟩ := List.mem_map.mp h
  rw [List.mem_filter] at hm
  exact ⟨m, hm.1, of_decide_eq_true hm.2, hcid⟩

/-- `updateMany` with `$set: { read: true }` changes no field other than
`read`. -/
theorem mem_markConversationRead {m : Msg} {s : Store} {cid : List Char} {u : UName}
    (hm : m ∈ markConversationRead s cid u) :
    ∃ m₀ ∈ s, m.sender = m₀.sender ∧ m.receiver = m₀.receiver ∧
      m.conversationId = m₀.conversationId := by
  unfold markConversationRead at hm
  obtain ⟨m₀, hm₀, heq⟩ := List.mem_map.mp hm
  refine ⟨m₀, hm₀, ?_⟩
  by_cases hcond : m₀.conversationId = cid ∧ m₀.receiver = u ∧ m₀.read = false
  · rw [if_pos hcond] at heq
    subst heq
    exact ⟨rfl, rfl, rfl⟩
  · rw [if_neg hcond] at heq
    subst heq
    exact ⟨rfl, rfl, rfl⟩

/-- After `updateMany({ conversationId, receiver, read: false }, { $set: { read: true } })`
the unread count of that conversation for that receiver is 0. -/
theorem unreadCountOf_markConversationRead (s : Store) (cid : List Char) (u : UName) :
    unreadCountOf (markConversationRead s cid u) cid u = 0 := by
  unfold unreadCountOf markConversationRead
  rw [List.length_eq_zero, List.filter_eq_nil_iff]
  intro m hm
  obtain ⟨m₀, _, heq⟩ := List.mem_map.mp hm
  by_cases hcond : m₀.conversationId = cid ∧ m₀.receiver = u ∧ m₀.read = false
  · rw [if_pos hcond] at heq
    subst heq
    simp
  · rw [if_neg hcond] at heq
    subst heq
    simp only [decide_eq_true_eq]
    intro hc
    exact hcond ⟨hc.1, hc.2.1, hc.2.2⟩

/-- The two possible values of the sorted pair. -/
theorem sortedPair_cases (a b : UName) :
    sortedPair a b = (a, b) ∨ sortedPair a b = (b, a) := by
  unfold sortedPair
  by_cases h : jsStringLt b a <;> simp [h]

/-- Sorted-pair form of `find_partner_key`: in a key `x_y` with sorted,
separator-free components, the first piece different from a participant
`u` is the other participant, and the key is `getConversationId` of the
two. -/
theorem find_partner_key_sorted {x y u p : UName} (hx : sep ∉ x) (hy : sep ∉ y)
    (hyx : jsStringLt y x = false) (hu : u = x ∨ u = y)
    (hfind : (splitUnderscore (x ++ sep :: y)).find? (fun t => t != u) = some p) :
    x ++ sep :: y = getConversationId u p := by
  rw [splitUnderscore_append _ hx, splitUnderscore_no_sep hy] at hfind
  by_cases hxu : x = u
  · subst hxu
    by_cases hyu : y = x
    · subst hyu
      simp [List.find?] at hfind
    · have hfy : ((y != x) : Bool) = true := by simp [hyu]
      simp only [List.find?, bne_self_eq_false, hfy, Option.some.injEq] at hfind
      subst hfind
      exact (getConversationId_of_sorted hyx).symm
  · have hfx : ((x != u) : Bool) = true := by
      simp only [bne_iff_ne, ne_eq]
      exact fun h => hxu h
    simp only [List.find?, hfx, Option.some.injEq] at hfind
    subst hfind
    have huy : u = y := by
      rcases hu with h | h
      · exact absurd h.symm hxu
      · exact h
    subst huy
    unfold getConversationId
    by_cases hxy : jsStringLt x u = true
    · rw [if_pos hxy]
    · have hf : jsStringLt x u = false := by simpa using hxy
      have he : u = x := jsStringLt_conn hyx hf
      rw [hf]
      simp [he]

/-- The partner found in the split of a conversation key built from
separator-free identifiers determines that key: it is the key of the
searching user and the found partner. -/
theorem find_partner_key {a b u p : UName} (ha : sep ∉ a) (hb : sep ∉ b)
    (hu : u = a ∨ u = b)
    (hfind : (splitUnderscore (getConversationId a b)).find? (fun t => t != u) = some p) :
    getConversationId a b = getConversationId u p := by
  have hk := getConversationId_eq_sortedPair a b
  have hyx := sortedPair_not_lt a b
  rcases sortedPair_cases a b with hsp | hsp <;> rw [hsp] at hk hyx <;>
    rw [hk] at hfind ⊢
  · exact find_partner_key_sorted ha hb hyx hu hfind
  · exact find_partner_key_sorted hb ha hyx hu.symm hfind

/-- After the `join-conversation` update, every message of the marked
conversation addressed to the reader is read. -/
theorem markConversationRead_reads_all (s : Store) (cid : List Char) (u : UName) :
    ∀ m ∈ markConversationRead s cid u,
      m.conversationId = cid → m.receiver = u → m.read = true := by
  intro m hm hcid hrecv
  unfold markConversationRead at hm
  obtain ⟨m₀, _, heq⟩ := List.mem_map.mp hm
  by_cases hcond : m₀.conversationId = cid ∧ m₀.receiver = u ∧ m₀.read = false
  · rw [if_pos hcond] at heq
    subst heq
    rfl
  · rw [if_neg hcond] at heq
    subst heq
    cases hread : m₀.read with
    | true => rfl
    | false => exact absurd ⟨hcid, hrecv, hread⟩ hcond

/-- Claim C1 (corrected part): `getConversationId` is commutative — the
canonical conversation identifier of a pair of users does not depend on
the argument order. -/
theorem getConversationId_commutative (a b : UName) :
    getConversationId a b = getConversationId b a :=
  getConversationId_swap a b

/-- Claim C1, counterexample to the claim as stated: the chat identifier
built by the iteration-1 `sendMessage` handler is order-dependent, so not
every conversation identifier derived in the code is commutative. -/
theorem sendMessageChatId_not_commutative :
    sendMessageChatId ['a'] ['b'] ≠ sendMessageChatId ['b'] ['a'] := by decide

/-- Claim C2 (amended): the `message_delivered` handler overwrites the
status unconditionally, so running it after `message_read` on the same
message leaves the status at `delivered` — the status regresses instead of
staying at `read`. -/
theorem message_delivered_overwrites_read (store : List MsgV4) (mid : Nat) :
    ∀ m ∈ messageDeliveredUpdate (messageReadUpdate store mid) mid,
      m.id = mid → m.status = .delivered := by
  intro m hm hid
  unfold messageDeliveredUpdate at hm
  obtain ⟨m₀, _, heq⟩ := List.mem_map.mp hm
  by_cases h : m₀.id = mid
  · rw [if_pos h] at heq
    subst heq
    rfl
  · rw [if_neg h] at heq
    subst heq
    exact absurd hid h

/-- Claim C2, counterexample to the claim as stated: marking a read message
delivered moves its status back to `delivered`, which differs from `read`. -/
theorem message_delivered_after_read_concrete :
    (messageDeliveredUpdate
        (messageReadUpdate [⟨1, 7, ['a'], ['b'], ['h', 'i'], .sent⟩] 1) 1).map
      MsgV4.status = [MsgStatus.delivered] ∧
    MsgStatus.delivered ≠ MsgStatus.read := by decide

/-- Claim C2, witness: the amended theorem applied to a concrete store. -/
theorem message_delivered_overwrites_read_witness :
    (⟨1, 7, ['a'], ['b'], ['h', 'i'], MsgStatus.delivered⟩ : MsgV4).status =
      MsgStatus.delivered :=
  message_delivered_overwrites_read [⟨1, 7, ['a'], ['b'], ['h', 'i'], .sent⟩] 1
    ⟨1, 7, ['a'], ['b'], ['h', 'i'], .delivered⟩ (by decide) (by decide)

/-- Claim C3: immediately after the receiver joins the conversation with a
partner, every message of that conversation addressed to the receiver is
read, and every summary entry of the receiver for that partner reports an
unread count of 0.  The hypotheses state the store invariants maintained
by `send-private-message`: each message carries the conversation id of its
own sender/receiver pair, and user identifiers do not contain the
separator. -/
theorem join_conversation_unread_zero (s : Store) (receiver partner : UName)
    (hwf : ∀ m ∈ s, m.conversationId = getConversationId m.sender m.receiver)
    (hsep : ∀ m ∈ s, sep ∉ m.sender ∧ sep ∉ m.receiver) :
    (∀ m ∈ (joinConversation s receiver partner).1,
      m.conversationId = getConversationId receiver partner →
      m.receiver = receiver → m.read = true) ∧
    (∀ e ∈ getUserConversations noDbFailure (joinConversation s receiver partner).1 receiver,
      e.partner = partner → e.unreadCount = 0) := by
  have hjoin : (joinConversation s receiver partner).1 =
      markConversationRead s (getConversationId receiver partner) receiver := rfl
  constructor
  · rw [hjoin]
    exact markConversationRead_reads_all s (getConversationId receiver partner) receiver
  · intro e he hp
    rw [hjoin] at he
    obtain ⟨cid, hcid, hfind, hcount⟩ := getUserConversations_noFail_mem he
    obtain ⟨m, hm, hinv, hcidm⟩ := mem_distinctConversationIds hcid
    obtain ⟨m₀, hm₀, es, er, ec⟩ := mem_markConversationRead hm
    have hcid0 : cid = getConversationId m₀.sender m₀.receiver := by
      rw [← hcidm, ec, hwf m₀ hm₀]
    have hu : receiver = m₀.sender ∨ receiver = m₀.receiver := by
      rcases hinv with h | h
      · exact Or.inl ((es.symm.trans h).symm)
      · exact Or.inr ((er.symm.trans h).symm)
    have hkey : cid = getConversationId receiver e.partner := by
      rw [hcid0] at hfind
      rw [hcid0]
      exact find_partner_key (hsep m₀ hm₀).1 (hsep m₀ hm₀).2 hu hfind
    rw [hp] at hkey
    rw [hcount, hkey]
    exact unreadCountOf_markConversationRead s (getConversationId receiver partner) receiver

/-- Claim C3, witness: a concrete store with one unread message from b to a;
after a joins the conversation with b, the message is read and the summary
entry for b has unread count 0. -/
theorem join_conversation_unread_zero_witness :
    (⟨1, ['h', 'i'], ['b'], ['a'], 5, ['a', '_', 'b'], true⟩ : Msg).read = true ∧
    (⟨['b'], some ⟨['h', 'i'], 5, ['b']⟩, 0⟩ : ConversationSummary).unreadCount = 0 :=
  ⟨(join_conversation_unread_zero
      [⟨1, ['h', 'i'], ['b'], ['a'], 5, getConversationId ['b'] ['a'], false⟩]
      ['a'] ['b'] (by decide) (by decide)).1
      ⟨1, ['h', 'i'], ['b'], ['a'], 5, ['a', '_', 'b'], true⟩
      (by decide) (by decide) (by decide),
   (join_conversation_unread_zero
      [⟨1, ['h', 'i'], ['b'], ['a'], 5, getConversationId ['b'] ['a'], false⟩]
      ['a'] ['b'] (by decide) (by decide)).2
      ⟨['b'], some ⟨['h', 'i'], 5, ['b']⟩, 0⟩
      (by decide) (by decide)⟩

/-- Claim C4: the `user-login` handler implements last-bind-wins — after
binding user u to socket c1 and then to socket c2, u resolves to c2 and
never to c1. -/
theorem user_login_last_bind_wins (st : Presence) (u : UName) (c1 c2 : Nat)
    (h : c1 ≠ c2) :
    resolveSocket (userLoginBind (userLoginBind st u c1) u c2) u = some c2 ∧
    resolveSocket (userLoginBind (userLoginBind st u c1) u c2) u ≠ some c1 := by
  constructor
  · simp [resolveSocket, userLoginBind]
  · simp only [resolveSocket, userLoginBind, if_pos]
    intro hc
    simp only [Option.some.injEq] at hc
    exact h hc.symm

/-- Claim C4, witness: the theorem at a concrete state and sockets. -/
theorem user_login_last_bind_wins_witness :
    resolveSocket (userLoginBind (userLoginBind emptyPresence ['u'] 1) ['u'] 2) ['u'] =
      some 2 ∧
    resolveSocket (userLoginBind (userLoginBind emptyPresence ['u'] 1) ['u'] 2) ['u'] ≠
      some 1 :=
  user_login_last_bind_wins emptyPresence ['u'] 1 2 (by decide)

/-- Claim C5, counterexample to the claim as stated: the history query
sorts by timestamp alone, and MongoDB specifies no order among documents
with equal timestamps.  For a conversation holding two messages with the
same timestamp, the sequence with the higher identifier first is an
admissible result of the `join-conversation` query, and it is not ordered
by the claimed timestamp-then-identifier tie-break. -/
theorem history_no_id_tiebreak_concrete :
    conversationHistoryResult
      [⟨1, ['x'], ['a'], ['b'], 5, ['a', '_', 'b'], false⟩,
       ⟨2, ['y'], ['b'], ['a'], 5, ['a', '_', 'b'], false⟩] ['a', '_', 'b']
      [⟨2, ['y'], ['b'], ['a'], 5, ['a', '_', 'b'], false⟩,
       ⟨1, ['x'], ['a'], ['b'], 5, ['a', '_', 'b'], false⟩] ∧
    ¬ ([⟨2, ['y'], ['b'], ['a'], 5, ['a', '_', 'b'], false⟩,
        ⟨1, ['x'], ['a'], ['b'], 5, ['a', '_', 'b'], false⟩] : List Msg).Pairwise
      (lexLt (fun m => m.timestamp) fun m => m.id) := by decide

/-- Claim C5 (amended): every admissible result of the `join-conversation`
history query consists of exactly the messages of the conversation in
timestamp-ascending order, and every admissible result of the
GET /api/messages route consists of exactly the non-deleted messages
between the two users in timestamp-ascending order — with no identifier
tie-break among equal timestamps, and with no per-viewer deletion in the
data model (the single `deleted` flag hides a message from both sides). -/
theorem history_sorted_by_timestamp_excludes_deleted (s : Store) (cid : List Char)
    (out1 : List Msg) (d : List MessageDoc) (cur other : UName)
    (out2 : List MessageDoc)
    (h1 : conversationHistoryResult s cid out1)
    (h2 : apiMessagesResult d cur other out2) :
    (out1.Pairwise fun a b => a.timestamp ≤ b.timestamp) ∧
    (∀ m ∈ out1, m.conversationId = cid) ∧
    (∀ m ∈ s, m.conversationId = cid → m ∈ out1) ∧
    (out2.Pairwise fun a b => a.timestamp ≤ b.timestamp) ∧
    (∀ m ∈ out2, m.deleted = false ∧
      ((m.senderId = cur ∧ m.receiverId = other) ∨
       (m.senderId = other ∧ m.receiverId = cur))) ∧
    (∀ m ∈ d,
      ((m.senderId = cur ∧ m.receiverId = other) ∨
       (m.senderId = other ∧ m.receiverId = cur)) →
      m.deleted = false → m ∈ out2) := by
  obtain ⟨hp1, hs1⟩ := h1
  obtain ⟨hp2, hs2⟩ := h2
  refine ⟨hs1, ?_, ?_, hs2, ?_, ?_⟩
  · intro m hm
    have hmem := hp1.mem_iff.mp hm
    rw [List.mem_filter] at hmem
    exact of_decide_eq_true hmem.2
  · intro m hm hcid
    exact hp1.mem_iff.mpr (List.mem_filter.mpr ⟨hm, decide_eq_true hcid⟩)
  · intro m hm
    have hmem := hp2.mem_iff.mp hm
    rw [List.mem_filter] at hmem
    have hc := of_decide_eq_true hmem.2
    exact ⟨hc.2, hc.1⟩
  · intro m hm hpart hdel
    exact hp2.mem_iff.mpr (List.mem_filter.mpr ⟨hm, decide_eq_true ⟨hpart, hdel⟩⟩)

/-- Claim C5, witness: concrete stores with an admissible query result
each; the history is exactly the conversation in timestamp order and the
route result is exactly the non-deleted message of the pair. -/
theorem history_sorted_by_timestamp_excludes_deleted_witness :
    (([⟨1, ['x'], ['a'], ['b'], 5, ['a', '_', 'b'], false⟩,
       ⟨2, ['y'], ['b'], ['a'], 5, ['a', '_', 'b'], false⟩] : List Msg).Pairwise
      fun a b => a.timestamp ≤ b.timestamp) ∧
    (∀ m ∈ ([⟨1, ['x'], ['a'], ['b'], 5, ['a', '_', 'b'], false⟩,
             ⟨2, ['y'], ['b'], ['a'], 5, ['a', '_', 'b'], false⟩] : List Msg),
      m.conversationId = ['a', '_', 'b']) ∧
    (∀ m ∈ ([⟨1, ['x'], ['a'], ['b'], 5, ['a', '_', 'b'], false⟩,
             ⟨2, ['y'], ['b'], ['a'], 5, ['a', '_', 'b'], false⟩] : List Msg),
      m.conversationId = ['a', '_', 'b'] →
      m ∈ ([⟨1, ['x'], ['a'], ['b'], 5, ['a', '_', 'b'], false⟩,
            ⟨2, ['y'], ['b'], ['a'], 5, ['a', '_', 'b'], false⟩] : List Msg)) ∧
    (([⟨1, ['a', '-', 'b'], ['a'], ['b'], ['x'], .sent, false, 5⟩] :
        List MessageDoc).Pairwise fun a b => a.timestamp ≤ b.timestamp) ∧
    (∀ m ∈ ([⟨1, ['a', '-', 'b'], ['a'], ['b'], ['x'], .sent, false, 5⟩] :
        List MessageDoc), m.deleted = false ∧
      ((m.senderId = ['a'] ∧ m.receiverId = ['b']) ∨
       (m.senderId = ['b'] ∧ m.receiverId = ['a']))) ∧
    (∀ m ∈ ([⟨1, ['a', '-', 'b'], ['a'], ['b'], ['x'], .sent, false, 5⟩,
             ⟨2, ['a', '-', 'b'], ['a'], ['b'], ['y'], .sent, true, 5⟩] :
        List MessageDoc),
      ((m.senderId = ['a'] ∧ m.receiverId = ['b']) ∨
       (m.senderId = ['b'] ∧ m.receiverId = ['a'])) →
      m.deleted = false →
      m ∈ ([⟨1, ['a', '-', 'b'], ['a'], ['b'], ['x'], .sent, false, 5⟩] :
        List MessageDoc)) :=
  history_sorted_by_timestamp_excludes_deleted
    [⟨1, ['x'], ['a'], ['b'], 5, ['a', '_', 'b'], false⟩,
     ⟨2, ['y'], ['b'], ['a'], 5, ['a', '_', 'b'], false⟩] ['a', '_', 'b']
    [⟨1, ['x'], ['a'], ['b'], 5, ['a', '_', 'b'], false⟩,
     ⟨2, ['y'], ['b'], ['a'], 5, ['a', '_', 'b'], false⟩]
    [⟨1, ['a', '-', 'b'], ['a'], ['b'], ['x'], .sent, false, 5⟩,
     ⟨2, ['a', '-', 'b'], ['a'], ['b'], ['y'], .sent, true, 5⟩] ['a'] ['b']
    [⟨1, ['a', '-', 'b'], ['a'], ['b'], ['x'], .sent, false, 5⟩]
    (by decide) (by decide)

/-- Claim C6: in both send handlers the client-visible sent echo is emitted
only after the append to the message store has succeeded.  When the insert
fails, `send-private-message` emits nothing and leaves the store unchanged,
and `sendMessage` emits only an error event; when the insert succeeds, the
first emission is the echo of the stored message to the sender. -/
theorem send_message_echo_only_after_append (o : DbFlags) (st : Presence) (s : Store)
    (sender receiver : UName) (text : List Char) (now newId : Nat)
    (d : List MessageDoc) (senderId receiverId : UName) (body : List Char)
    (now1 newId1 : Nat) (save1Ok receiverOnline save2Ok : Bool) :
    sendPrivateMessage false o st s sender receiver text now newId = (s, []) ∧
    (sendPrivateMessage true o st s sender receiver text now newId).1 =
      s ++ [privateMessage sender receiver text now newId] ∧
    (sendPrivateMessage true o st s sender receiver text now newId).2.head? =
      some (SEvent.newPrivateMessage sender
        (privateMessage sender receiver text now newId)) ∧
    (sendMessageV1 true save1Ok receiverOnline save2Ok d senderId receiverId
        body now1 newId1).2 = [V1Event.errorMsg senderId] ∧
    (sendMessageV1 false false receiverOnline save2Ok d senderId receiverId
        body now1 newId1).2 = [V1Event.errorMsg senderId] ∧
    (sendMessageV1 false true receiverOnline save2Ok d senderId receiverId
        body now1 newId1).2.head? =
      some (V1Event.messageSent senderId
        (v1NewMessage senderId receiverId body now1 newId1)) := by
    refine ⟨rfl, rfl, rfl, rfl, rfl, ?_⟩
    cases receiverOnline <;> cases save2Ok <;> rfl

/-- Claim C7 (amended): when the four identifiers do not contain the
separator, equal conversation keys force equal unordered pairs. -/
theorem getConversationId_injective_sep_free {a b c d : UName}
    (ha : sep ∉ a) (hb : sep ∉ b) (hc : sep ∉ c) (hd : sep ∉ d)
    (h : getConversationId a b = getConversationId c d) :
    (a = c ∧ b = d) ∨ (a = d ∧ b = c) :=
  getConversationId_inj_pair ha hb hc hd h

/-- Claim C7, counterexample to the claim as stated: identifiers containing
the separator make two distinct unordered pairs collide on the same key. -/
theorem getConversationId_separator_collision :
    getConversationId ['x'] ['y', '_', 'z'] = getConversationId ['x', '_', 'y'] ['z'] ∧
    ¬ ((['x'] = ['x', '_', 'y'] ∧ ['y', '_', 'z'] = ['z']) ∨
       (['x'] = ['z'] ∧ ['y', '_', 'z'] = ['x', '_', 'y'])) := by decide

/-- Claim C7, witness: the amended theorem applied to concrete
separator-free identifiers. -/
theorem getConversationId_injective_sep_free_witness :
    (['a'] = ['b'] ∧ ['b'] = ['a']) ∨ (['a'] = ['a'] ∧ (['b'] : UName) = ['b']) :=
  getConversationId_injective_sep_free (a := ['a']) (b := ['b']) (c := ['b']) (d := ['a'])
    (by decide) (by decide) (by decide) (by decide) (by decide)

/-- Claim C8 (amended): `getConversationId` performs no validation at all —
for equal identifiers it still returns the joined string, and there is no
error path. -/
theorem getConversationId_no_validation (u : UName) :
    getConversationId u u = u ++ sep :: u := by
  unfold getConversationId
  simp [jsStringLt_irrefl]

/-- Claim C8, counterexample to the claim as stated: equal and empty
identifiers produce ordinary conversation identifiers instead of an
InvalidParticipants error. -/
theorem getConversationId_self_produces_id :
    getConversationId ['a', 'l', 'i'] ['a', 'l', 'i'] =
      ['a', 'l', 'i', '_', 'a', 'l', 'i'] ∧
    getConversationId [] ['b'] = ['_', 'b'] := by decide

/-- Claim C9 (amended): the `disconnect` handler has no stale-handle guard.
After binding u to c1 and then to c2, a disconnect of c1 still finds the
stale `activeUsers` entry for c1 and deletes the `userSockets` entry of u,
so u resolves to nothing — the fresh binding to c2 is lost. -/
theorem disconnect_evicts_fresh_binding (st : Presence) (u : UName) (c1 c2 : Nat) :
    resolveSocket
      (disconnectSocket (userLoginBind (userLoginBind st u c1) u c2) c1).1 u = none := by
  unfold disconnectSocket userLoginBind resolveSocket
  by_cases h : c1 = c2 <;> simp [h]

/-- Claim C9, counterexample to the claim as stated: after bind(u, 1),
bind(u, 2), a disconnect of socket 1 leaves u unresolvable instead of
still bound to socket 2. -/
theorem disconnect_after_rebind_unresolvable_concrete :
    resolveSocket
      (disconnectSocket (userLoginBind (userLoginBind emptyPresence ['u'] 1) ['u'] 2) 1).1
      ['u'] ≠ some 2 ∧
    resolveSocket
      (disconnectSocket (userLoginBind (userLoginBind emptyPresence ['u'] 1) ['u'] 2) 1).1
      ['u'] = none := by
  constructor
  · intro h
    simp [disconnectSocket, userLoginBind, resolveSocket, emptyPresence] at h
  · simp [disconnectSocket, userLoginBind, resolveSocket, emptyPresence]

/-- Claim C10: `getUserConversations` is total over backing-store outcomes;
whenever its try-block fails it returns the empty list, which is the same
value it returns for a user with no messages at all. -/
theorem getUserConversations_failure_empty (o : DbFlags) (s : Store) (u : UName)
    (h : ∃ er, getUserConversationsTry o s u = .error er) :
    getUserConversations o s u = [] ∧
    getUserConversations o s u = getUserConversations noDbFailure [] u := by
  obtain ⟨er, her⟩ := h
  unfold getUserConversations
  rw [her]
  exact ⟨rfl, rfl⟩

/-- Claim C10, witness: a failing aggregation call on a concrete store. -/
theorem getUserConversations_failure_empty_witness :
    getUserConversations ⟨true, false, false⟩ [] ['u'] = [] ∧
    getUserConversations ⟨true, false, false⟩ [] ['u'] =
      getUserConversations noDbFailure [] ['u'] :=
  getUserConversations_failure_empty ⟨true, false, false⟩ [] ['u'] ⟨DbError.failure, rfl⟩

end GramX
